import Mathlib

/-!
Verification of the step-loop controller of the ui-capture-agent repository.

The Python sources are shallowly embedded:

* `pyIn`, `netloc`, `isOauthHost`, `emailKeywords` mirror the string policies
  used by `agents/orchestrator.py`;
* `fallbackAction`, `parseAction`, `planNext` mirror `agents/reasoning_agent.py`;
* `applyUiDefaults`, `parseJsonUi`, `describeUi` mirror `agents/vision_agent.py`;
* `perform` mirrors `WebAgent.perform` from `agents/web_agent.py`;
* `observePhase`, `pollOauth`, `afterObserve`, `afterGuard`, `afterDom`,
  `actPhase`, `finishNormal`, `iteration`, `loopRun`, `runTask` mirror
  `Orchestrator.run_task` from `agents/orchestrator.py`.

External capabilities (the Playwright browser and the two Ollama model calls)
are modelled as oracle streams (`Env`): the n-th call of each primitive
returns the n-th entry of the corresponding stream, and an `.error` entry
models that call raising an exception.  Python `json.loads` is abstracted as
a function parameter `String → Option _`; theorems quantify over it.
-/

namespace UICapture

/-- Python `str.lower()` (character-wise, as `String.toLower`, but stated on
the character list so that it reduces in the kernel). -/
def strLower (s : String) : String :=
  String.mk (s.data.map Char.toLower)

/-- Python `str.strip()` (whitespace from both ends; character-list based so
that it reduces in the kernel). -/
def pyStrip (s : String) : String :=
  String.mk
    (((s.data.dropWhile Char.isWhitespace).reverse.dropWhile
        Char.isWhitespace).reverse)

/-- Python `needle in hay` for strings (substring containment). -/
def pyInAux (n : List Char) : List Char → Bool
  | [] => n.isEmpty
  | c :: rest => List.isPrefixOf n (c :: rest) || pyInAux n rest

/-- Python `needle in hay` (substring test, `needle` first like Python's `in`). -/
def pyIn (needle hay : String) : Bool :=
  pyInAux needle.data hay.data

/-- Characters allowed in a URL scheme after the first letter (as in CPython). -/
def isSchemeChar (c : Char) : Bool :=
  c.isAlphanum || c == '+' || c == '-' || c == '.'

/-- Split a character list at the first colon: the parts before and after it. -/
def splitAtColon : List Char → Option (List Char × List Char)
  | [] => none
  | c :: rest =>
    if c == ':' then some ([], rest)
    else
      match splitAtColon rest with
      | none => none
      | some (pre, post) => some (c :: pre, post)

/-- Drop a leading `scheme:` the way CPython `urllib.parse` does: the text in
front of the first colon must be a letter followed by scheme characters. -/
def afterScheme (s : List Char) : List Char :=
  match splitAtColon s with
  | some (pre, post) =>
    match pre with
    | [] => s
    | c :: cs => if c.isAlpha && cs.all isSchemeChar then post else s
  | none => s

/-- `urlparse(url).netloc`: present only after a leading `//`, and extends up
to the next `/`, `?` or `#`. -/
def netloc (url : String) : String :=
  match afterScheme url.data with
  | '/' :: '/' :: rest =>
    String.mk (rest.takeWhile fun c => !(c == '/' || c == '?' || c == '#'))
  | _ => ""

/-- The fixed OAuth host denylist from `Orchestrator.run_task` (line 109). -/
def oauthDomains : List String :=
  ["accounts.google.com", "github.com", "oauth", "login.microsoftonline.com",
   "appleid.apple.com"]

/-- `any(oauth in current_domain.lower() for oauth in oauth_domains)`. -/
def isOauthHost (domain : String) : Bool :=
  oauthDomains.any fun o => pyIn o (strLower domain)

/-- Email-ish keywords for credential auto-fill (orchestrator line 202). -/
def emailKeywords : List String :=
  ["email", "e-mail", "username", "user name"]

/-- The structured output of the Action Planner: a JSON-ish dictionary.  Every
field is optional, mirroring dictionary keys that may be absent (a key present
with JSON `null` is conflated with an absent key). -/
structure PlannerOutput where
  action : Option String
  target : Option String
  value : Option String
  confidence : Option ℚ
  done : Option Bool
  reasoning : Option String
  error : Option String
  deriving DecidableEq

/-- The keyword fallback of `ReasoningAgent._parse_action` (lines 56-77):
used when no JSON object with an `action` key can be extracted. -/
def fallbackAction (text : String) : PlannerOutput :=
  let tl := strLower text
  let act :=
    if pyIn "click" tl then "click"
    else if pyIn "fill" tl || pyIn "enter" tl || pyIn "type" tl then "fill"
    else if pyIn "navigate" tl || pyIn "go to" tl then "navigate"
    else "unknown"
  let doneFlag :=
    act == "unknown" &&
      (pyIn "done" tl || pyIn "complete" tl || pyIn "finished" tl)
  { action := some act, target := none, value := none,
    confidence := some (1 / 2 : ℚ), done := some doneFlag,
    reasoning := some text, error := none }

/-- `text.find(c)` (Python): index of the first occurrence, if any. -/
def findIdxOfChar (c : Char) (s : List Char) : Option Nat :=
  s.findIdx? (· == c)

/-- `text.rfind(c)` (Python): index of the last occurrence, if any. -/
def rfindIdxOfChar (c : Char) (s : List Char) : Option Nat :=
  match findIdxOfChar c s.reverse with
  | none => none
  | some i => some (s.length - 1 - i)

/-- `ReasoningAgent._parse_action` (lines 30-77).  `jsonParse` abstracts
Python `json.loads` (returning `none` when it raises or when the result has
no `"action"` key is folded into `Option` plus the `action.isSome` test). -/
def parseAction (jsonParse : String → Option PlannerOutput) (text0 : String) :
    PlannerOutput :=
  let text := pyStrip text0
  match findIdxOfChar '{' text.data, rfindIdxOfChar '}' text.data with
  | some s, some e =>
    let jsonStr := String.mk ((text.data.drop s).take (e + 1 - s))
    match jsonParse jsonStr with
    | some obj => if obj.action.isSome then obj else fallbackAction text
    | none => fallbackAction text
  | _, _ => fallbackAction text

/-- Transport outcome of one `requests.post` call made by the Planner.
`ok` carries the extracted response text; `requestError` models
`requests.exceptions.RequestException`; `otherError` models any other
exception (e.g. `response.json()` raising). -/
inductive PlanTransport where
  | ok (responseText : String)
  | requestError (msg : String)
  | otherError (msg : String)
  deriving DecidableEq

/-- The synthetic error decision built by `ReasoningAgent.plan_next` in its
two exception handlers (lines 171-192). -/
def errorDecision (reasonPre msg : String) : PlannerOutput :=
  { action := some "error", target := none, value := none,
    confidence := some (0 : ℚ), done := some false,
    reasoning := some (reasonPre ++ msg), error := some msg }

/-- `ReasoningAgent.plan_next` (lines 149-192), given the transport outcome. -/
def planNext (jsonParse : String → Option PlannerOutput) (t : PlanTransport) :
    PlannerOutput :=
  match t with
  | .ok text => parseAction jsonParse text
  | .requestError m => errorDecision "Error: " m
  | .otherError m => errorDecision "Unexpected error: " m

/-- A structured UI description as consumed by the loop: after the
`setdefault` calls of `describe_ui` all seven keys are always present, plus
an optional `error` marker. -/
structure UiDescription where
  title : String
  buttons : List String
  fields : List String
  links : List String
  text_content : String
  layout : String
  interactive_elements : List String
  error : Option String
  deriving DecidableEq

/-- A JSON dictionary as parsed from the vision model response, before the
`setdefault` normalisation (absent keys are `none`).  The parse-fallback
dictionary (`description`/`raw_response` only, vision_agent lines 77-80) is
represented by the all-`none` value. -/
structure UiJson where
  title : Option String := none
  buttons : Option (List String) := none
  fields : Option (List String) := none
  links : Option (List String) := none
  text_content : Option String := none
  layout : Option String := none
  interactive_elements : Option (List String) := none
  error : Option String := none
  deriving DecidableEq

/-- `VisionAgent._parse_json` (lines 52-80): extract the text between the
first `{` and the last `}` and parse it; on failure return the fallback
dictionary, which has none of the seven UI keys. -/
def parseJsonUi (jsonParse : String → Option UiJson) (text0 : String) : UiJson :=
  let text := pyStrip text0
  match findIdxOfChar '{' text.data, rfindIdxOfChar '}' text.data with
  | some s, some e =>
    match jsonParse (String.mk ((text.data.drop s).take (e + 1 - s))) with
    | some obj => obj
    | none => {}
  | _, _ => {}

/-- The `setdefault` block of `describe_ui` (lines 160-166). -/
def applyUiDefaults (j : UiJson) : UiDescription :=
  { title := j.title.getD "", buttons := j.buttons.getD [],
    fields := j.fields.getD [], links := j.links.getD [],
    text_content := j.text_content.getD "", layout := j.layout.getD "",
    interactive_elements := j.interactive_elements.getD [],
    error := j.error }

/-- Transport outcome of one vision model call: success with the extracted
response text, `requests.exceptions.Timeout`, another
`requests.exceptions.RequestException`, or any other exception. -/
inductive VisionTransport where
  | ok (responseText : String)
  | timeout (msg : String)
  | requestError (msg : String)
  | otherError (msg : String)
  deriving DecidableEq

/-- Whether a transport outcome is a success. -/
def VisionTransport.isOk : VisionTransport → Bool
  | .ok _ => true
  | _ => false

/-- Degraded description for a timeout on the last attempt (lines 179-188). -/
def timeoutDegraded (timeoutSecs retryAttempts : Nat) (m : String) :
    UiDescription :=
  { title := "Timeout Error", buttons := [], fields := [], links := [],
    text_content := "Vision model timeout after " ++ toString timeoutSecs ++
      "s (tried " ++ toString (retryAttempts + 1) ++
      " times). Model may be too slow or image too large.",
    layout := "unknown", interactive_elements := [],
    error := some ("Timeout: " ++ m) }

/-- Degraded description for a non-timeout request error (lines 193-202). -/
def requestDegraded (m : String) : UiDescription :=
  { title := "Error", buttons := [], fields := [], links := [],
    text_content := "Error describing UI: " ++ m,
    layout := "unknown", interactive_elements := [], error := some m }

/-- Degraded description for any other exception (lines 206-215). -/
def otherDegraded (m : String) : UiDescription :=
  { title := "Error", buttons := [], fields := [], links := [],
    text_content := "Unexpected error: " ++ m,
    layout := "unknown", interactive_elements := [], error := some m }

/-- The defensive tail of `describe_ui` (lines 218-227; not reachable from
`describeUi` below, kept for faithfulness). -/
def retriesDegraded (lastError : Option String) : UiDescription :=
  { title := "Error", buttons := [], fields := [], links := [],
    text_content := "Failed after all retries: " ++ lastError.getD "None",
    layout := "unknown", interactive_elements := [],
    error := some (lastError.getD "Unknown error") }

/-- The retry loop of `VisionAgent.describe_ui` (lines 130-227).  `attempt`
is the current attempt index and `remaining` the number of loop iterations
left (`retryAttempts + 1 - attempt` at every call from `describeUi`). -/
def describeUiGo (jsonParse : String → Option UiJson)
    (attempts : Nat → VisionTransport) (timeoutSecs retryAttempts : Nat) :
    Nat → Nat → Option String → UiDescription
  | _, 0, lastError => retriesDegraded lastError
  | attempt, remaining + 1, _ =>
    match attempts attempt with
    | .ok text => applyUiDefaults (parseJsonUi jsonParse text)
    | .timeout m =>
      if attempt < retryAttempts then
        describeUiGo jsonParse attempts timeoutSecs retryAttempts
          (attempt + 1) remaining (some m)
      else timeoutDegraded timeoutSecs retryAttempts m
    | .requestError m => requestDegraded m
    | .otherError m => otherDegraded m

/-- `VisionAgent.describe_ui`, with the transport outcomes of the successive
attempts supplied as the stream `attempts`. -/
def describeUi (jsonParse : String → Option UiJson)
    (attempts : Nat → VisionTransport) (timeoutSecs retryAttempts : Nat) :
    UiDescription :=
  describeUiGo jsonParse attempts timeoutSecs retryAttempts 0
    (retryAttempts + 1) none

/-- The optional credential set (`email`/`password`). -/
structure Credentials where
  email : Option String
  password : Option String
  deriving DecidableEq

/-- Python truthiness of `self.credentials.get(key)` (`None` and `""` falsy). -/
def credTruthy : Option String → Bool
  | some s => !(s == "")
  | none => false

/-- Python truthiness of the `self.credentials` dictionary itself (the
constructor builds it from the two known keys only). -/
def credsNonempty (c : Credentials) : Bool :=
  c.email.isSome || c.password.isSome

/-- One entry of the full step-metadata store (`StateManager.save_step`).
Timestamp and the raw vision/DOM payloads are not modelled; `decision` is the
planner dictionary as serialised at the moment of the call. -/
structure SavedStep where
  step : Nat
  url : String
  screenshot : String
  description : String
  actionTaken : String
  decision : PlannerOutput
  deriving DecidableEq

/-- One line of the compact step log (`RunRecorder.record_step`); timestamp,
buttons and reasoning text are not modelled. -/
structure RecEntry where
  step : Nat
  url : String
  image : String
  action : String
  target : Option String
  status : String
  deriving DecidableEq

/-- Observable events of a run, in program order. -/
inductive Event where
  | navigate (url : Option String)
  | sleepSecs (s : ℚ)
  | capture (path : String)
  | getUrl (result : String)
  | getDom
  | describe (img : String)
  | plan (idx : Nat)
  | savedStep (s : SavedStep)
  | recorded (r : RecEntry)
  | performCall (d : PlannerOutput)
  | clickAct (target : Option String)
  | fillAct (field : Option String) (value : Option String)
  | waitAct (secs : ℚ)
  | summary (completed : Bool) (error : Option String)
  deriving DecidableEq

/-- Oracle streams for the external capabilities: the n-th call of each
primitive receives the n-th entry of its stream; an `.error` entry models
that call raising an exception with that message. -/
structure Env where
  url : Nat → String
  capture : Nat → Except String Unit
  dom : Nat → Except String Unit
  vision : Nat → UiDescription
  plan : Nat → PlannerOutput
  clickRes : Nat → Except String Bool
  fillRes : Nat → Except String Unit
  navRes : Nat → Except String Unit
  uiChanged : Nat → Bool

/-- Per-primitive call counters. -/
structure Counters where
  nUrl : Nat := 0
  nCap : Nat := 0
  nDom : Nat := 0
  nVis : Nat := 0
  nPlan : Nat := 0
  nClick : Nat := 0
  nFill : Nat := 0
  nNav : Nat := 0
  nProbe : Nat := 0
  deriving DecidableEq

/-- The mutable state of `Orchestrator.run_task`, plus the trace and the two
persistence sinks. -/
structure LoopSt where
  step : Nat
  done : Bool
  error : Option String
  oauthDetected : Bool
  shotReady : Bool
  ctr : Counters
  trace : List Event
  saved : List SavedStep
  recorded : List RecEntry
  deriving DecidableEq

/-- Run configuration (constructor arguments plus `run_task` arguments). -/
structure Config where
  taskName : String
  taskDescription : String
  initialUrl : Option String
  maxSteps : Nat
  credentials : Credentials
  deriving DecidableEq

/-- The final result dictionary of `run_task`. -/
structure RunResult where
  task : String
  completed : Bool
  steps : Nat
  error : Option String
  finalState : Option SavedStep
  deriving DecidableEq

/-- Python `f"{n:02d}"` for natural numbers. -/
def pad2 (n : Nat) : String :=
  if n < 10 then "0" ++ toString n else toString n

/-- `f"data/{task_name}/step_{step:02d}.png"`. -/
def shotPath (task : String) (step : Nat) : String :=
  "data/" ++ task ++ "/step_" ++ pad2 step ++ ".png"

/-- `StateManager.save_step`: update in place when the index already exists,
otherwise append (state_manager lines 76-79). -/
def saveStepList (l : List SavedStep) (s : SavedStep) : List SavedStep :=
  if s.step < l.length then l.set s.step s else l ++ [s]

/-- `WebAgent.perform` (web_agent lines 697-731): dispatch on the raw
`action` key; returns whether navigation occurred, or the exception message.
The events record the dispatch and the arguments handed to the browser. -/
def perform (env : Env) (c : Counters) (d : PlannerOutput) :
    Except String Bool × Counters × List Event :=
  match d.action with
  | some "click" =>
    (env.clickRes c.nClick, { c with nClick := c.nClick + 1 },
      [Event.performCall d, Event.clickAct d.target])
  | some "fill" =>
    (Except.map (fun _ => false) (env.fillRes c.nFill),
      { c with nFill := c.nFill + 1 },
      [Event.performCall d, Event.fillAct d.target d.value])
  | some "navigate" =>
    (Except.map (fun _ => true) (env.navRes c.nNav),
      { c with nNav := c.nNav + 1 },
      [Event.performCall d, Event.navigate d.target])
  | some "wait" =>
    match d.value with
    | none => (Except.ok false, c, [Event.performCall d, Event.waitAct 1])
    | some v =>
      if v == "" then
        (Except.ok false, c, [Event.performCall d, Event.waitAct 1])
      else
        (Except.error "TypeError: sleep duration must be numeric", c,
          [Event.performCall d])
  | a =>
    (Except.error ("Unknown action type: " ++ a.getD "None"), c,
      [Event.performCall d])

/-- Result of one loop iteration: continue, break out of the `while`, or an
exception escaping to the outer handler (orchestrator line 397). -/
inductive IterOut where
  | next (st : LoopSt)
  | brk (st : LoopSt)
  | fatal (st : LoopSt) (msg : String)
  deriving DecidableEq

/-- The loop state carried by an iteration outcome. -/
def IterOut.state : IterOut → LoopSt
  | .next st => st
  | .brk st => st
  | .fatal st _ => st

/-- Result of the observe step: the updated state plus the screenshot path
handed onwards, or an escaping exception. -/
inductive ObserveOut where
  | ok (st : LoopSt) (imgPath : String)
  | fatal (st : LoopSt) (msg : String)
  deriving DecidableEq

/-- The observe step (orchestrator lines 91-102): capture a screenshot at the
current index unless one was already captured after the previous click, in
which case that screenshot is reused and the flag is reset. -/
def observePhase (env : Env) (cfg : Config) (st : LoopSt) : ObserveOut :=
  let spath := shotPath cfg.taskName st.step
  if st.shotReady then
    ObserveOut.ok { st with shotReady := false } spath
  else
    match env.capture st.ctr.nCap with
    | .error m =>
      ObserveOut.fatal
        { st with ctr := { st.ctr with nCap := st.ctr.nCap + 1 } } m
    | .ok _ =>
      ObserveOut.ok
        { st with ctr := { st.ctr with nCap := st.ctr.nCap + 1 },
                  trace := st.trace ++ [Event.capture spath] } spath

/-- The OAuth wait loop (orchestrator lines 117-124): up to `k` polls of one
second each, re-reading the URL after each sleep; stops early as soon as the
host again contains the original domain or leaves the denylist.  Returns
(still stuck?, new url counter, last read URL, appended events). -/
def pollOauth (env : Env) (o : String) :
    Nat → Nat → String → List Event → Bool × Nat × String × List Event
  | 0, n, u, evs => (true, n, u, evs)
  | k + 1, n, _, evs =>
    let u2 := env.url n
    let evs2 := evs ++ [Event.sleepSecs 1, Event.getUrl u2]
    if pyIn o (netloc u2) || !isOauthHost (netloc u2) then
      (false, n + 1, u2, evs2)
    else pollOauth env o k (n + 1) u2 evs2

/-- The credential auto-fill policy (orchestrator lines 196-210). -/
def substCreds (creds : Credentials) (dec : PlannerOutput)
    (actType actTarget : String) : PlannerOutput :=
  if actType == "fill" && credsNonempty creds then
    if emailKeywords.any (fun k => pyIn k actTarget) then
      if credTruthy creds.email then { dec with value := creds.email } else dec
    else if pyIn "password" actTarget then
      if credTruthy creds.password then { dec with value := creds.password }
      else dec
    else dec
  else dec

/-- The tail of a normal iteration (orchestrator lines 334-371): final step
record, brief pause, step increment. -/
def finishNormal (st : LoopSt) (curUrl imgPath act actType : String)
    (dec : PlannerOutput) (navOccurred : Bool) : IterOut :=
  let status :=
    if navOccurred || !(actType == "click") then "success" else "pending"
  let r : RecEntry :=
    { step := st.step, url := curUrl, image := imgPath,
      action := act, target := dec.target, status := status }
  IterOut.next
    { st with
      step := st.step + 1,
      recorded := st.recorded ++ [r],
      trace := st.trace ++ [Event.recorded r, Event.sleepSecs (1 / 2)] }

/-- The act phase (the `try` body, orchestrator lines 195-368): credential
substitution, action dispatch, post-action reconciliation (navigation versus
non-navigating click), failure handling. -/
def actPhase (env : Env) (cfg : Config) (st : LoopSt)
    (curUrl imgPath act : String) (dec0 : PlannerOutput) : IterOut :=
  let actType := strLower act
  let actTarget := strLower (dec0.target.getD "")
  let dec := substCreds cfg.credentials dec0 actType actTarget
  let urlBefore := env.url st.ctr.nUrl
  let st1 := { st with ctr := { st.ctr with nUrl := st.ctr.nUrl + 1 },
                       trace := st.trace ++ [Event.getUrl urlBefore] }
  match perform env st1.ctr dec with
  | (res, c2, evs) =>
    let st2 := { st1 with ctr := c2, trace := st1.trace ++ evs }
    match res with
    | .error m =>
      let f1 : RecEntry :=
        { step := st2.step, url := urlBefore, image := imgPath,
          action := act, target := dec.target, status := "failure" }
      let f2 : RecEntry :=
        { step := st2.step, url := curUrl, image := imgPath,
          action := act, target := dec.target, status := "failure" }
      IterOut.brk
        { st2 with
          error := some m,
          recorded := st2.recorded ++ [f1, f2],
          trace := st2.trace ++ [Event.recorded f1, Event.recorded f2] }
    | .ok navOccurred =>
      if navOccurred then
        let u2 := env.url st2.ctr.nUrl
        let st3 :=
          { st2 with
            ctr := { st2.ctr with nUrl := st2.ctr.nUrl + 1 },
            trace := st2.trace ++ [Event.sleepSecs 2, Event.getUrl u2] }
        finishNormal st3 u2 imgPath act actType dec navOccurred
      else if actType == "click" then
        let changed := env.uiChanged st2.ctr.nProbe
        let st3 :=
          { st2 with
            ctr := { st2.ctr with nProbe := st2.ctr.nProbe + 1 },
            trace := st2.trace ++ [Event.sleepSecs 2] ++
              (if changed then [Event.sleepSecs 1] else []) }
        let newStep := st3.step + 1
        let newPath := shotPath cfg.taskName newStep
        match env.capture st3.ctr.nCap with
        | .ok _ =>
          let st4 :=
            { st3 with
              step := newStep,
              ctr := { st3.ctr with nCap := st3.ctr.nCap + 1 },
              trace := st3.trace ++ [Event.capture newPath] }
          let u3 := env.url st4.ctr.nUrl
          let st5 :=
            { st4 with
              ctr := { st4.ctr with nUrl := st4.ctr.nUrl + 1 },
              trace := st4.trace ++ [Event.getUrl u3] }
          let st6 :=
            { st5 with
              ctr := { st5.ctr with nVis := st5.ctr.nVis + 1 },
              trace := st5.trace ++ [Event.describe newPath] }
          let r : RecEntry :=
            { step := newStep, url := u3, image := newPath,
              action := "ui_updated",
              target := some ("After clicking: " ++ dec.target.getD "None"),
              status := "success" }
          IterOut.next
            { st6 with
              shotReady := true,
              recorded := st6.recorded ++ [r],
              trace := st6.trace ++
                [Event.recorded r, Event.sleepSecs (1 / 2)] }
        | .error _ =>
          let st4 :=
            { st3 with
              step := newStep,
              ctr := { st3.ctr with nCap := st3.ctr.nCap + 1 } }
          finishNormal st4 curUrl imgPath act actType dec false
      else
        finishNormal st2 curUrl imgPath act actType dec navOccurred

/-- Perceive, decide and record intent (orchestrator lines 138-193); assumes
the DOM read succeeded. -/
def afterDom (env : Env) (cfg : Config) (st : LoopSt)
    (curUrl imgPath : String) : IterOut :=
  let v := env.vision st.ctr.nVis
  let st1 := { st with ctr := { st.ctr with nVis := st.ctr.nVis + 1 },
                       trace := st.trace ++ [Event.describe imgPath] }
  let planIdx := st1.ctr.nPlan
  let dec := env.plan planIdx
  let st2 := { st1 with ctr := { st1.ctr with nPlan := planIdx + 1 },
                        trace := st1.trace ++ [Event.plan planIdx] }
  let doneF := dec.done.getD false
  let act := dec.action.getD "unknown"
  let s : SavedStep :=
    { step := st2.step, url := curUrl, screenshot := imgPath,
      description := v.title,
      actionTaken := act ++ ": " ++ dec.target.getD "N/A", decision := dec }
  let st3 :=
    { st2 with
      done := doneF, saved := saveStepList st2.saved s,
      trace := st2.trace ++ [Event.savedStep s] }
  let pend : RecEntry :=
    { step := st3.step, url := curUrl, image := imgPath,
      action := act, target := dec.target, status := "pending" }
  let st4 :=
    { st3 with
      recorded := st3.recorded ++ [pend],
      trace := st3.trace ++ [Event.recorded pend] }
  if doneF then IterOut.brk st4
  else if act == "error" then
    IterOut.brk { st4 with error := some (dec.error.getD "Unknown error") }
  else actPhase env cfg st4 curUrl imgPath act dec

/-- The DOM read plus the oauth skip branch (orchestrator lines 130-136; the
skip branch is kept although `oauthDetected` is false on every path that
reaches it). -/
def afterGuard (env : Env) (cfg : Config) (st : LoopSt)
    (curUrl imgPath : String) : IterOut :=
  match env.dom st.ctr.nDom with
  | .error m =>
    IterOut.fatal { st with ctr := { st.ctr with nDom := st.ctr.nDom + 1 } } m
  | .ok _ =>
    let st1 := { st with ctr := { st.ctr with nDom := st.ctr.nDom + 1 },
                         trace := st.trace ++ [Event.getDom] }
    if st1.oauthDetected then IterOut.next { st1 with step := st1.step + 1 }
    else afterDom env cfg st1 curUrl imgPath

/-- The URL read and the OAuth guard (orchestrator lines 104-128). -/
def afterObserve (env : Env) (cfg : Config) (origDomain : Option String)
    (st : LoopSt) (imgPath : String) : IterOut :=
  let u := env.url st.ctr.nUrl
  let st1 := { st with ctr := { st.ctr with nUrl := st.ctr.nUrl + 1 },
                       trace := st.trace ++ [Event.getUrl u] }
  let origTruthy := match origDomain with
    | some o => !(o == "")
    | none => false
  if isOauthHost (netloc u) && origTruthy then
    let o := origDomain.getD ""
    match pollOauth env o 10 st1.ctr.nUrl u [] with
    | (stuck, nUrl2, u2, evs) =>
      let st2 := { st1 with ctr := { st1.ctr with nUrl := nUrl2 },
                            trace := st1.trace ++ evs }
      if stuck then
        IterOut.brk
          { st2 with
            oauthDetected := true,
            error := some ("Stuck on OAuth page: " ++ netloc u2 ++
              ". Please complete authentication manually.") }
      else afterGuard env cfg { st2 with oauthDetected := false } u2 imgPath
  else afterGuard env cfg st1 u imgPath

/-- One iteration of the `while` loop body (orchestrator lines 86-371). -/
def iteration (env : Env) (cfg : Config) (origDomain : Option String)
    (st : LoopSt) : IterOut :=
  match observePhase env cfg st with
  | .fatal st1 m => IterOut.fatal st1 m
  | .ok st1 imgPath => afterObserve env cfg origDomain st1 imgPath

/-- The `while step < max_steps and not done` loop.  `fuel` only bounds the
recursion: every continuing iteration strictly increases `step`, so calling
with `fuel = maxSteps` never cuts the loop short. -/
def loopRun (env : Env) (cfg : Config) (origDomain : Option String) :
    Nat → LoopSt → LoopSt × Option String
  | 0, st => (st, none)
  | fuel + 1, st =>
    if st.step < cfg.maxSteps && !st.done then
      match iteration env cfg origDomain st with
      | .next st2 => loopRun env cfg origDomain fuel st2
      | .brk st2 => (st2, none)
      | .fatal st2 m => (st2, some m)
    else (st, none)

/-- Python truthiness of the optional initial URL. -/
def initTruthy : Option String → Bool
  | some u => !(u == "")
  | none => false

/-- Building the final result dictionary from the loop outcome (orchestrator
lines 373-405): the `some` case is the outer `except` handler, the `none`
case the normal tail with its summary write. -/
def finishRun (cfg : Config) : LoopSt × Option String → RunResult × LoopSt
  | (stF, some m) =>
    ({ task := cfg.taskDescription, completed := false,
       steps := stF.step + 1, error := some m, finalState := none }, stF)
  | (stF, none) =>
    ({ task := cfg.taskDescription, completed := stF.done,
       steps := stF.step + 1, error := stF.error,
       finalState := stF.saved.getLast? },
     { stF with trace := stF.trace ++ [Event.summary stF.done stF.error] })

/-- `Orchestrator.run_task` (orchestrator lines 52-405).  The initial
navigation happens before the outer `try`, so its exception propagates to
the caller (the `.error` result).  Otherwise the Run Result is paired with
the final loop state, for observation by the theorems. -/
def runTask (env : Env) (cfg : Config) : Except String (RunResult × LoopSt) :=
  let navOut : Except String (Counters × List Event) :=
    if initTruthy cfg.initialUrl then
      match env.navRes 0 with
      | .ok _ =>
        .ok ({ nNav := 1 }, [Event.navigate cfg.initialUrl, Event.sleepSecs 2])
      | .error m => .error m
    else .ok ({}, [])
  match navOut with
  | .error m => .error m
  | .ok (c0, evs0) =>
    let origDomain := if initTruthy cfg.initialUrl then
        some (netloc (cfg.initialUrl.getD "")) else none
    let st0 : LoopSt :=
      { step := 0, done := false, error := none, oauthDetected := false,
        shotReady := false, ctr := c0, trace := evs0,
        saved := [], recorded := [] }
    .ok (finishRun cfg (loopRun env cfg origDomain cfg.maxSteps st0))

/-- Decidable equality for `Except`, used to evaluate runs in witnesses. -/
instance {ε α : Type _} [DecidableEq ε] [DecidableEq α] :
    DecidableEq (Except ε α) := fun x y =>
  match x, y with
  | .error a, .error b =>
    if h : a = b then .isTrue (h ▸ rfl)
    else .isFalse fun hh => h (Except.error.inj hh)
  | .ok a, .ok b =>
    if h : a = b then .isTrue (h ▸ rfl)
    else .isFalse fun hh => h (Except.ok.inj hh)
  | .error _, .ok _ => .isFalse fun hh => Except.noConfusion hh
  | .ok _, .error _ => .isFalse fun hh => Except.noConfusion hh

/-- Number of dispatches to `WebAgent.perform` recorded in a trace. -/
def countPerform (evs : List Event) : Nat :=
  evs.countP fun e => match e with | .performCall _ => true | _ => false

/-- Number of screenshots captured in a trace. -/
def countCapture (evs : List Event) : Nat :=
  evs.countP fun e => match e with | .capture _ => true | _ => false

/-- Number of screenshots captured before the first describer call. -/
def capturesBeforeDescribe (evs : List Event) : Nat :=
  countCapture
    (evs.takeWhile fun e => match e with | .describe _ => false | _ => true)

/-- A degraded-but-well-formed describer result: all four list fields empty,
the layout marker `"unknown"` and the error marker set. -/
def degradedShape (d : UiDescription) : Prop :=
  d.buttons = [] ∧ d.fields = [] ∧ d.links = [] ∧
    d.interactive_elements = [] ∧ d.layout = "unknown" ∧
    d.error.isSome = true

instance (d : UiDescription) : Decidable (degradedShape d) := by
  unfold degradedShape; infer_instance

/-! ### Concrete fixtures used by witnesses and counterexamples -/

/-- A neutral UI description. -/
def uiBlank : UiDescription :=
  { title := "Page", buttons := [], fields := [], links := [],
    text_content := "", layout := "", interactive_elements := [],
    error := none }

/-- An error-marked degraded UI description, as the describer returns it on
a non-timeout transport failure. -/
def uiDegraded : UiDescription :=
  requestDegraded "connection refused"

/-- Planner decision: task done. -/
def decDone : PlannerOutput :=
  { action := some "done", target := none, value := none,
    confidence := some 1, done := some true,
    reasoning := some "task complete", error := none }

/-- Planner decision: click `Next`, not done. -/
def decClick : PlannerOutput :=
  { action := some "click", target := some "Next", value := none,
    confidence := some (9 / 10 : ℚ), done := some false,
    reasoning := some "advance", error := none }

/-- Planner decision: fill the email field with a guessed value. -/
def decFillEmail : PlannerOutput :=
  { action := some "fill", target := some "Email address",
    value := some "planner-guess", confidence := some (9 / 10 : ℚ),
    done := some false, reasoning := some "sign up", error := none }

/-- Planner decision: the synthetic error action. -/
def decErrorAct : PlannerOutput :=
  errorDecision "Error: " "connection refused"

/-- A configured credential pair. -/
def credsAB : Credentials :=
  { email := some "a@b.com", password := some "hunter2" }

/-- No credentials configured. -/
def credsNone : Credentials :=
  { email := none, password := none }

/-- An environment where every browser primitive succeeds, the page never
leaves `app.example.com`, and the planner immediately reports done. -/
def envDone : Env :=
  { url := fun _ => "https://app.example.com/x",
    capture := fun _ => .ok (), dom := fun _ => .ok (),
    vision := fun _ => uiBlank, plan := fun _ => decDone,
    clickRes := fun _ => .ok false, fillRes := fun _ => .ok (),
    navRes := fun _ => .ok (), uiChanged := fun _ => false }

/-- As `envDone` but the browser is parked on an OAuth host forever. -/
def envStuck : Env :=
  { envDone with url := fun _ => "https://accounts.google.com/signin" }

/-- As `envDone` but step 0 finds the browser on an OAuth host and the first
poll already sees the redirect back to the original domain. -/
def envResolve : Env :=
  { envDone with
    url := fun n =>
      if n == 0 then "https://accounts.google.com/oauth2/consent"
      else "https://app.example.com/dashboard" }

/-- As `envDone` but the planner wants to fill the email field. -/
def envFill : Env :=
  { envDone with plan := fun _ => decFillEmail }

/-- As `envDone` but the planner always clicks and no navigation happens. -/
def envClick : Env :=
  { envDone with plan := fun _ => decClick }

/-- As `envDone` but the describer output carries an error marker. -/
def envVisionErr : Env :=
  { envDone with vision := fun _ => uiDegraded }

/-- As `envDone` but the planner reports the synthetic error action. -/
def envErrAct : Env :=
  { envDone with plan := fun _ => decErrorAct }

/-- Standard configuration: initial URL on `app.example.com`, five steps. -/
def cfgStd : Config :=
  { taskName := "demo", taskDescription := "sign up",
    initialUrl := some "https://app.example.com/start", maxSteps := 5,
    credentials := credsNone }

/-- As `cfgStd` with credentials configured and a one-step budget. -/
def cfgFill : Config :=
  { cfgStd with maxSteps := 1, credentials := credsAB }

/-- As `cfgStd` with a zero step budget. -/
def cfgZero : Config :=
  { cfgStd with maxSteps := 0 }

/-- As `cfgStd` with a three-step budget (budget-exhaustion scenario). -/
def cfgThree : Config :=
  { cfgStd with maxSteps := 3 }

/-- A loop state at the top of an iteration: fresh counters and sinks. -/
def stFresh : LoopSt :=
  { step := 0, done := false, error := none, oauthDetected := false,
    shotReady := false, ctr := {}, trace := [], saved := [], recorded := [] }

/-! ### Supporting lemmas -/

/-- `WebAgent.perform` never touches the planner call counter. -/
theorem perform_nPlan (env : Env) (c : Counters) (d : PlannerOutput) :
    ((perform env c d).2.1).nPlan = c.nPlan := by
  unfold perform
  split <;> first | rfl | (split <;> first | rfl | (split <;> rfl))

/-- The act phase never touches the planner call counter. -/
theorem actPhase_nPlan (env : Env) (cfg : Config) (st : LoopSt)
    (curUrl imgPath act : String) (dec0 : PlannerOutput) :
    ((actPhase env cfg st curUrl imgPath act dec0).state).ctr.nPlan
      = st.ctr.nPlan := by
  unfold actPhase
  have hp := perform_nPlan env
    { st.ctr with nUrl := st.ctr.nUrl + 1 }
    (substCreds cfg.credentials dec0 (strLower act)
      (strLower (dec0.target.getD "")))
  rcases hper : perform env { st.ctr with nUrl := st.ctr.nUrl + 1 }
      (substCreds cfg.credentials dec0 (strLower act)
        (strLower (dec0.target.getD ""))) with ⟨res, c2, evs⟩
  rw [hper] at hp
  simp only [hper]
  cases res with
  | error m => simpa [IterOut.state] using hp
  | ok navOccurred =>
    cases navOccurred with
    | true => simpa [IterOut.state, finishNormal] using hp
    | false =>
      by_cases hck : strLower act == "click"
      · simp only [hck, if_true, Bool.false_eq_true, if_false]
        cases hcap : env.capture c2.nCap with
        | ok u => simpa [IterOut.state, hcap] using hp
        | error m => simpa [IterOut.state, finishNormal, hcap] using hp
      · simpa [IterOut.state, finishNormal, hck] using hp

/-- The trace grows monotonically through the act phase. -/
theorem actPhase_trace_mono (env : Env) (cfg : Config) (st : LoopSt)
    (curUrl imgPath act : String) (dec0 : PlannerOutput) :
    st.trace <+: ((actPhase env cfg st curUrl imgPath act dec0).state).trace := by
  unfold actPhase
  rcases hper : perform env { st.ctr with nUrl := st.ctr.nUrl + 1 }
      (substCreds cfg.credentials dec0 (strLower act)
        (strLower (dec0.target.getD ""))) with ⟨res, c2, evs⟩
  simp only [hper]
  cases res with
  | error m =>
    simp only [IterOut.state, List.append_assoc]
    exact List.prefix_append _ _
  | ok navOccurred =>
    cases navOccurred with
    | true =>
      simp only [IterOut.state, finishNormal, List.append_assoc]
      exact List.prefix_append _ _
    | false =>
      by_cases hck : strLower act == "click"
      · simp only [hck, if_true, Bool.false_eq_true, if_false]
        cases hcap : env.capture c2.nCap with
        | ok u =>
          simp only [IterOut.state, hcap, List.append_assoc]
          exact List.prefix_append _ _
        | error m =>
          simp only [IterOut.state, finishNormal, hcap, List.append_assoc]
          exact List.prefix_append _ _
      · simp only [IterOut.state, finishNormal, hck, Bool.false_eq_true,
          if_false, List.append_assoc]
        exact List.prefix_append _ _

/-- Whatever the planner replies, `afterDom` calls the describer on the
screenshot it was handed and then invokes the planner exactly once. -/
theorem afterDom_plans (env : Env) (cfg : Config) (st : LoopSt)
    (curUrl imgPath : String) :
    ((afterDom env cfg st curUrl imgPath).state).ctr.nPlan
        = st.ctr.nPlan + 1 ∧
      Event.plan st.ctr.nPlan
          ∈ ((afterDom env cfg st curUrl imgPath).state).trace ∧
      Event.describe imgPath
          ∈ ((afterDom env cfg st curUrl imgPath).state).trace := by
  simp only [afterDom]
  by_cases hdone : (env.plan st.ctr.nPlan).done.getD false = true
  · simp [hdone, IterOut.state]
  · simp only [hdone, Bool.false_eq_true, if_false]
    by_cases herr : ((env.plan st.ctr.nPlan).action.getD "unknown" == "error") = true
    · simp [herr, IterOut.state]
    · simp only [herr, Bool.false_eq_true, if_false]
      refine ⟨?_, ?_, ?_⟩
      · rw [actPhase_nPlan]
      · refine (actPhase_trace_mono _ _ _ _ _ _ _).subset ?_
        simp
      · refine (actPhase_trace_mono _ _ _ _ _ _ _).subset ?_
        simp

/-- Any run of the describer retry loop on which no attempt succeeds ends in
a degraded object. -/
theorem describeUiGo_degraded (jsonParse : String → Option UiJson)
    (attempts : Nat → VisionTransport) (tSecs rAtt : Nat)
    (hfail : ∀ i, i ≤ rAtt → (attempts i).isOk = false) :
    ∀ remaining attempt lastErr, attempt + remaining = rAtt + 1 →
      degradedShape
        (describeUiGo jsonParse attempts tSecs rAtt attempt remaining
          lastErr) := by
  intro remaining
  induction remaining with
  | zero =>
    intro attempt lastErr _
    simp [describeUiGo, retriesDegraded, degradedShape]
  | succ rem ih =>
    intro attempt lastErr hsum
    have hle : attempt ≤ rAtt := by omega
    cases hat : attempts attempt with
    | ok text =>
      have := hfail attempt hle
      rw [hat] at this
      exact absurd this (by simp [VisionTransport.isOk])
    | timeout m =>
      by_cases hlt : attempt < rAtt
      · simp only [describeUiGo, hat, hlt, if_true]
        exact ih (attempt + 1) (some m) (by omega)
      · simp [describeUiGo, hat, hlt, timeoutDegraded, degradedShape]
    | requestError m =>
      simp [describeUiGo, hat, requestDegraded, degradedShape]
    | otherError m =>
      simp [describeUiGo, hat, otherDegraded, degradedShape]

/-! ### Claim theorems -/

/-- **C9** — For every model/transport failure, `describe_ui` returns (never
throws) a well-formed degraded description whose list fields are all empty
and which carries an error marker; and on receiving any error-marked
description the loop still invokes the Planner rather than halting. -/
theorem C9_degraded_describer_never_halts :
    (∀ jsonParse attempts tSecs rAtt,
      (∀ i, i ≤ rAtt → ((attempts i : VisionTransport)).isOk = false) →
      degradedShape (describeUi jsonParse attempts tSecs rAtt)) ∧
    (∀ env cfg st curUrl imgPath,
      ((env : Env).vision st.ctr.nVis).error.isSome = true →
      ((afterDom env cfg st curUrl imgPath).state).ctr.nPlan
          = st.ctr.nPlan + 1 ∧
        Event.plan st.ctr.nPlan
          ∈ ((afterDom env cfg st curUrl imgPath).state).trace) := by
  constructor
  · intro jsonParse attempts tSecs rAtt hfail
    exact describeUiGo_degraded jsonParse attempts tSecs rAtt hfail
      (rAtt + 1) 0 none (by omega)
  · intro env cfg st curUrl imgPath _hmark
    exact ⟨(afterDom_plans env cfg st curUrl imgPath).1,
      (afterDom_plans env cfg st curUrl imgPath).2.1⟩

/-- Witness for C9: two failing attempts degrade into an error-marked object
with empty element lists, and an iteration seeing an error-marked description
still performs its planner call. -/
theorem C9_witness :
    degradedShape
        (describeUi (fun _ => none)
          (fun _ => VisionTransport.requestError "refused") 180 2) ∧
      (envVisionErr.vision stFresh.ctr.nVis).error.isSome = true ∧
      ((afterDom envVisionErr cfgStd stFresh "u" "img").state).ctr.nPlan
          = stFresh.ctr.nPlan + 1 ∧
      Event.plan stFresh.ctr.nPlan
          ∈ ((afterDom envVisionErr cfgStd stFresh "u" "img").state).trace := by
  refine ⟨C9_degraded_describer_never_halts.1 (fun _ => none)
      (fun _ => VisionTransport.requestError "refused") 180 2
      (fun i _ => rfl), by decide, ?_, ?_⟩
  · exact (C9_degraded_describer_never_halts.2 envVisionErr cfgStd stFresh
      "u" "img" (by decide)).1
  · exact (C9_degraded_describer_never_halts.2 envVisionErr cfgStd stFresh
      "u" "img" (by decide)).2

/-- **C8 counterexample** — a malformed (unparseable) model output does not
yield `action="error"`: on the braceless reply `"just some gibberish"` the
keyword fallback returns `action="unknown"`. -/
theorem C8_counterexample :
    (planNext (fun _ => none) (.ok "just some gibberish")).action
        = some "unknown" ∧
      ¬((planNext (fun _ => none) (.ok "just some gibberish")).action
          = some "error") := by
  exact ⟨by decide, by decide⟩

/-- **C8 (amended)** — `plan_next` never raises; a transport failure (or any
other exception of the call) yields the synthetic `action="error"` decision
carrying the message, and the loop treats that decision as a hard stop which
surfaces the error without dispatching any action; a malformed (unparseable)
model output instead degrades to the keyword-fallback decision, whose action
is never `"error"`. -/
theorem C8_amended_planner_error_handling :
    (∀ jsonParse m,
      (planNext jsonParse (.requestError m)).action = some "error" ∧
        (planNext jsonParse (.requestError m)).error = some m) ∧
    (∀ jsonParse m,
      (planNext jsonParse (.otherError m)).action = some "error" ∧
        (planNext jsonParse (.otherError m)).error = some m) ∧
    (∀ text, ¬((fallbackAction text).action = some "error")) ∧
    (∀ env cfg st curUrl imgPath,
      ((env : Env).plan st.ctr.nPlan).action = some "error" →
      (env.plan st.ctr.nPlan).done.getD false = false →
      ∃ st2, afterDom env cfg st curUrl imgPath = .brk st2 ∧
        st2.error = some ((env.plan st.ctr.nPlan).error.getD "Unknown error") ∧
        countPerform st2.trace = countPerform st.trace) := by
  refine ⟨fun jsonParse m => ⟨rfl, rfl⟩, fun jsonParse m => ⟨rfl, rfl⟩,
    ?_, ?_⟩
  · intro text h
    simp only [fallbackAction, Option.some.injEq] at h
    repeat' split at h
    all_goals simp_all
  · intro env cfg st curUrl imgPath hact hdone
    simp only [afterDom, hact, hdone, Option.getD_some, Bool.false_eq_true,
      if_false]
    refine ⟨_, rfl, rfl, ?_⟩
    simp [countPerform]

/-- Witness for the amended C8: concrete transport failures degrade to the
error action; a concrete malformed reply falls back to a non-error action;
and a concrete iteration seeing the error action breaks with the surfaced
message and no dispatch. -/
theorem C8_amended_witness :
    (planNext (fun _ => none) (.requestError "boom")).action = some "error" ∧
      (planNext (fun _ => none) (.otherError "boom")).action = some "error" ∧
      ¬((fallbackAction "mystery reply").action = some "error") ∧
      decErrorAct.action = some "error" ∧
      decErrorAct.done.getD false = false ∧
      (∃ st2, afterDom envErrAct cfgStd stFresh "u" "img" = .brk st2 ∧
        st2.error = some "connection refused" ∧
        countPerform st2.trace = countPerform stFresh.trace) := by
  refine ⟨(C8_amended_planner_error_handling.1 (fun _ => none) "boom").1,
    (C8_amended_planner_error_handling.2.1 (fun _ => none) "boom").1,
    C8_amended_planner_error_handling.2.2.1 "mystery reply",
    by decide, by decide, ?_⟩
  have h := C8_amended_planner_error_handling.2.2.2 envErrAct cfgStd stFresh
    "u" "img" (by decide) (by decide)
  simpa [envErrAct, decErrorAct, errorDecision] using h

/-- **C10** — On every exit path that produces a Run Result (normal exit,
early break, or a fatal exception caught at the outer boundary), the `steps`
field equals the final loop counter plus one, hence is at least 1 even for a
run that executes zero iterations. -/
theorem C10_steps_equals_final_counter_plus_one (env : Env) (cfg : Config)
    (r : RunResult) (stF : LoopSt) (h : runTask env cfg = .ok (r, stF)) :
    r.steps = stF.step + 1 ∧ 1 ≤ r.steps := by
  have hfin : ∀ p, (finishRun cfg p).1.steps = (finishRun cfg p).2.step + 1 := by
    rintro ⟨st1, fat⟩
    cases fat <;> rfl
  have hs : r.steps = stF.step + 1 := by
    unfold runTask at h
    repeat' split at h
    all_goals
      first
        | exact Except.noConfusion h
        | (injection h with h1
           have h2 := congrArg Prod.fst h1
           have h3 := congrArg Prod.snd h1
           simp only at h2 h3
           rw [← h2, ← h3]
           exact hfin _)
  exact ⟨hs, by omega⟩

/-- Witness for C10: a zero-budget run executes no iterations yet reports
`steps = 1 = final counter + 1`. -/
theorem C10_witness :
    runTask envDone cfgZero
        = .ok ({ task := "sign up", completed := false, steps := 1,
                 error := none, finalState := none },
          { step := 0, done := false, error := none, oauthDetected := false,
            shotReady := false, ctr := { nNav := 1 },
            trace := [Event.navigate (some "https://app.example.com/start"),
              Event.sleepSecs 2, Event.summary false none],
            saved := [], recorded := [] }) ∧
      (1 : Nat) = 0 + 1 ∧ 1 ≤ 1 := by
  have hrun : runTask envDone cfgZero
      = .ok ({ task := "sign up", completed := false, steps := 1,
               error := none, finalState := none },
        { step := 0, done := false, error := none, oauthDetected := false,
          shotReady := false, ctr := { nNav := 1 },
          trace := [Event.navigate (some "https://app.example.com/start"),
            Event.sleepSecs 2, Event.summary false none],
          saved := [], recorded := [] }) := by decide
  exact ⟨hrun, C10_steps_equals_final_counter_plus_one envDone cfgZero _ _ hrun⟩

/-- The act phase never touches the step-metadata store. -/
theorem actPhase_saved (env : Env) (cfg : Config) (st : LoopSt)
    (curUrl imgPath act : String) (dec0 : PlannerOutput) :
    ((actPhase env cfg st curUrl imgPath act dec0).state).saved = st.saved := by
  unfold actPhase
  rcases hper : perform env { st.ctr with nUrl := st.ctr.nUrl + 1 }
      (substCreds cfg.credentials dec0 (strLower act)
        (strLower (dec0.target.getD ""))) with ⟨res, c2, evs⟩
  simp only [hper]
  cases res with
  | error m => simp [IterOut.state]
  | ok navOccurred =>
    cases navOccurred with
    | true => simp [IterOut.state, finishNormal]
    | false =>
      by_cases hck : strLower act == "click"
      · simp only [hck, if_true, Bool.false_eq_true, if_false]
        cases hcap : env.capture c2.nCap with
        | ok u => simp [IterOut.state, hcap]
        | error m => simp [IterOut.state, finishNormal, hcap]
      · simp [IterOut.state, finishNormal, hck]

/-- Email-keyword fill actions dispatch the configured email credential: the
substitution rewrites the decision's value, and the `fill` handed to the
browser carries the credential. -/
theorem fill_dispatches_email_credential (env : Env) (cfg : Config)
    (st : LoopSt) (curUrl imgPath : String) (dec : PlannerOutput)
    (hact : dec.action = some "fill")
    (hkw : emailKeywords.any
      (fun k => pyIn k (strLower (dec.target.getD ""))) = true)
    (em : String) (hem : cfg.credentials.email = some em)
    (hne : ¬(em = "")) :
    substCreds cfg.credentials dec "fill" (strLower (dec.target.getD ""))
        = { dec with value := some em } ∧
      Event.fillAct dec.target (some em)
        ∈ ((actPhase env cfg st curUrl imgPath "fill" dec).state).trace := by
  have hsub : substCreds cfg.credentials dec "fill"
      (strLower (dec.target.getD "")) = { dec with value := some em } := by
    simp [substCreds, credsNonempty, hem, hkw, credTruthy, hne]
  refine ⟨hsub, ?_⟩
  simp only [actPhase, show strLower "fill" = "fill" from rfl, hsub]
  simp only [perform, hact]
  cases hfill : env.fillRes st.ctr.nFill with
  | ok u =>
    simp [hfill, Except.map, IterOut.state, finishNormal]
  | error m =>
    simp [hfill, Except.map, IterOut.state]

/-- **C4** — For every fill action whose lower-cased target contains one of
the email keywords, when a non-empty email credential is configured, the
value handed to the Browser Controller's `fill` equals the configured email
credential, regardless of the value the Planner originally proposed. -/
theorem C4_email_credential_substitution (env : Env) (cfg : Config)
    (st : LoopSt) (curUrl imgPath : String) (dec : PlannerOutput)
    (hact : dec.action = some "fill")
    (hkw : emailKeywords.any
      (fun k => pyIn k (strLower (dec.target.getD ""))) = true)
    (em : String) (hem : cfg.credentials.email = some em)
    (hne : ¬(em = "")) :
    substCreds cfg.credentials dec "fill" (strLower (dec.target.getD ""))
        = { dec with value := some em } ∧
      Event.fillAct dec.target (some em)
        ∈ ((actPhase env cfg st curUrl imgPath "fill" dec).state).trace :=
  fill_dispatches_email_credential env cfg st curUrl imgPath dec hact hkw
    em hem hne

/-- Witness for C4: in a concrete iteration with target `"Email address"`,
proposed value `"planner-guess"` and credential email `"a@b.com"`, the fill
dispatched to the browser carries `"a@b.com"`. -/
theorem C4_witness :
    decFillEmail.action = some "fill" ∧
      emailKeywords.any
        (fun k => pyIn k (strLower (decFillEmail.target.getD ""))) = true ∧
      cfgFill.credentials.email = some "a@b.com" ∧
      ¬(("a@b.com" : String) = "") ∧
      substCreds cfgFill.credentials decFillEmail "fill"
          (strLower (decFillEmail.target.getD ""))
        = { decFillEmail with value := some "a@b.com" } ∧
      Event.fillAct decFillEmail.target (some "a@b.com")
        ∈ ((actPhase envFill cfgFill stFresh "u" "img" "fill"
            decFillEmail).state).trace := by
  refine ⟨by decide, by decide, by decide, by decide, ?_, ?_⟩
  · exact (C4_email_credential_substitution envFill cfgFill stFresh "u" "img"
      decFillEmail (by decide) (by decide) "a@b.com" (by decide)
      (by decide)).1
  · exact (C4_email_credential_substitution envFill cfgFill stFresh "u" "img"
      decFillEmail (by decide) (by decide) "a@b.com" (by decide)
      (by decide)).2

/-- The compact step log grows monotonically through the act phase. -/
theorem actPhase_recorded_mono (env : Env) (cfg : Config) (st : LoopSt)
    (curUrl imgPath act : String) (dec0 : PlannerOutput) :
    st.recorded
      <+: ((actPhase env cfg st curUrl imgPath act dec0).state).recorded := by
  unfold actPhase
  rcases hper : perform env { st.ctr with nUrl := st.ctr.nUrl + 1 }
      (substCreds cfg.credentials dec0 (strLower act)
        (strLower (dec0.target.getD ""))) with ⟨res, c2, evs⟩
  simp only [hper]
  cases res with
  | error m =>
    simp only [IterOut.state]
    exact List.prefix_append _ _
  | ok navOccurred =>
    cases navOccurred with
    | true =>
      simp only [IterOut.state, finishNormal]
      exact List.prefix_append _ _
    | false =>
      by_cases hck : strLower act == "click"
      · simp only [hck, if_true, Bool.false_eq_true, if_false]
        cases hcap : env.capture c2.nCap with
        | ok u =>
          simp only [IterOut.state, hcap]
          exact List.prefix_append _ _
        | error m =>
          simp only [IterOut.state, finishNormal, hcap]
          exact List.prefix_append _ _
      · simp only [IterOut.state, finishNormal, hck, Bool.false_eq_true,
          if_false]
        exact List.prefix_append _ _

/-- **C5 counterexample** — In the concrete run where the Planner proposes
filling `"Email address"` with `"planner-guess"` and the credential email is
`"a@b.com"`, the persisted step metadata stores the original decision value
`"planner-guess"` while the browser receives `"a@b.com"`: the logged decision
value does not equal the value actually filled. -/
theorem C5_counterexample :
    ((runTask envFill cfgFill).toOption.map fun p =>
        (p.2.saved.map fun s => s.decision.value,
          decide (Event.fillAct (some "Email address") (some "a@b.com")
              ∈ p.2.trace)))
        = some ([some "planner-guess"], true) ∧
      ¬((some "planner-guess" : Option String) = some "a@b.com") := by
  exact ⟨by decide, by decide⟩

/-- **C5 (amended)** — The pending step record and the persisted step
metadata of a credential-eligible fill iteration are written from the
Planner's original decision, before credential substitution: the stored
decision keeps the originally proposed value, while the fill dispatched to
the browser carries the substituted credential. -/
theorem C5_amended_pending_is_presubstitution (env : Env) (cfg : Config)
    (st : LoopSt) (curUrl imgPath : String) (dec : PlannerOutput)
    (hplan : env.plan st.ctr.nPlan = dec)
    (hact : dec.action = some "fill")
    (hdone : dec.done.getD false = false)
    (hkw : emailKeywords.any
      (fun k => pyIn k (strLower (dec.target.getD ""))) = true)
    (em : String) (hem : cfg.credentials.email = some em)
    (hne : ¬(em = "")) :
    ((afterDom env cfg st curUrl imgPath).state).saved
        = saveStepList st.saved
            { step := st.step, url := curUrl, screenshot := imgPath,
              description := (env.vision st.ctr.nVis).title,
              actionTaken := "fill" ++ ": " ++ dec.target.getD "N/A",
              decision := dec } ∧
      ({ step := st.step, url := curUrl, image := imgPath, action := "fill",
         target := dec.target, status := "pending" } : RecEntry)
        ∈ ((afterDom env cfg st curUrl imgPath).state).recorded ∧
      Event.fillAct dec.target (some em)
        ∈ ((afterDom env cfg st curUrl imgPath).state).trace := by
  simp only [afterDom, hplan, hact, hdone, Option.getD_some,
    Bool.false_eq_true, if_false]
  rw [if_neg (by decide : ¬((("fill" : String) == "error") = true))]
  refine ⟨?_, ?_, ?_⟩
  · rw [actPhase_saved]
  · refine (actPhase_recorded_mono _ _ _ _ _ _ _).subset ?_
    simp
  · exact (fill_dispatches_email_credential env cfg _ curUrl imgPath dec
      hact hkw em hem hne).2

/-- Witness for the amended C5: in the concrete eligible fill iteration the
saved metadata keeps value `"planner-guess"`, the pending record is present,
and the dispatched fill value is `"a@b.com"`. -/
theorem C5_amended_witness :
    ((afterDom envFill cfgFill stFresh "u" "img").state).saved
        = saveStepList stFresh.saved
            { step := 0, url := "u", screenshot := "img",
              description := "Page",
              actionTaken := "fill" ++ ": " ++ "Email address",
              decision := decFillEmail } ∧
      ({ step := 0, url := "u", image := "img", action := "fill",
         target := some "Email address", status := "pending" } : RecEntry)
        ∈ ((afterDom envFill cfgFill stFresh "u" "img").state).recorded ∧
      Event.fillAct (some "Email address") (some "a@b.com")
        ∈ ((afterDom envFill cfgFill stFresh "u" "img").state).trace := by
  have h := C5_amended_pending_is_presubstitution envFill cfgFill stFresh
    "u" "img" decFillEmail rfl rfl rfl (by decide) "a@b.com" rfl (by decide)
  simpa [stFresh, envFill, uiBlank, decFillEmail] using h

/-- The non-navigating click branch: one extra screenshot at `step + 1`, the
step counter advances by exactly one, the ready flag is set, the control
flags are untouched, and the next observe phase reuses the new screenshot. -/
theorem actPhase_click_branch (env : Env) (cfg : Config)
    (st : LoopSt) (curUrl imgPath : String) (dec : PlannerOutput)
    (hact : dec.action = some "click")
    (hclick : env.clickRes st.ctr.nClick = .ok false)
    (hcap : env.capture st.ctr.nCap = .ok ()) :
    ∃ st2, actPhase env cfg st curUrl imgPath "click" dec = .next st2 ∧
      st2.step = st.step + 1 ∧
      st2.shotReady = true ∧
      st2.done = st.done ∧
      st2.error = st.error ∧
      st2.oauthDetected = st.oauthDetected ∧
      countCapture st2.trace = countCapture st.trace + 1 ∧
      Event.capture (shotPath cfg.taskName (st.step + 1)) ∈ st2.trace ∧
      observePhase env cfg st2
        = .ok { st2 with shotReady := false }
            (shotPath cfg.taskName (st.step + 1)) := by
  have hsub : substCreds cfg.credentials dec "click"
      (strLower (dec.target.getD "")) = dec := by
    simp [substCreds]
  simp only [actPhase, show strLower "click" = "click" from rfl, hsub]
  simp only [perform, hact, hclick]
  simp only [Bool.false_eq_true, if_false, beq_self_eq_true, if_true]
  simp only [hcap]
  by_cases hch : env.uiChanged st.ctr.nProbe
  · refine ⟨_, rfl, rfl, rfl, rfl, rfl, rfl, ?_, ?_, ?_⟩
    · simp [hch, countCapture]
    · simp [hch]
    · simp [hch, observePhase]
  · refine ⟨_, rfl, rfl, rfl, rfl, rfl, rfl, ?_, ?_, ?_⟩
    · simp [hch, countCapture]
    · simp [hch]
    · simp [hch, observePhase]

/-- **C6** — For every click action that the Browser Controller reports as
non-navigating, the iteration captures exactly one additional screenshot, at
index `step + 1`, before the next perceive/decide cycle; the step counter
advances by exactly 1 (not 2) as a result of this branch; and the next
observe phase reuses that very screenshot instead of capturing a new one. -/
theorem C6_nonnavigating_click_recapture (env : Env) (cfg : Config)
    (st : LoopSt) (curUrl imgPath : String) (dec : PlannerOutput)
    (hact : dec.action = some "click")
    (hclick : env.clickRes st.ctr.nClick = .ok false)
    (hcap : env.capture st.ctr.nCap = .ok ()) :
    ∃ st2, actPhase env cfg st curUrl imgPath "click" dec = .next st2 ∧
      st2.step = st.step + 1 ∧
      st2.shotReady = true ∧
      countCapture st2.trace = countCapture st.trace + 1 ∧
      Event.capture (shotPath cfg.taskName (st.step + 1)) ∈ st2.trace ∧
      observePhase env cfg st2
        = .ok { st2 with shotReady := false }
            (shotPath cfg.taskName (st.step + 1)) := by
  obtain ⟨st2, h1, h2, h3, _, _, _, h4, h5, h6⟩ :=
    actPhase_click_branch env cfg st curUrl imgPath dec hact hclick hcap
  exact ⟨st2, h1, h2, h3, h4, h5, h6⟩

/-- Witness for C6: the concrete non-navigating click at step 0 yields one
extra screenshot at index 1, a step counter of 1, and a next observe phase
that reuses `data/demo/step_01.png`. -/
theorem C6_witness :
    decClick.action = some "click" ∧
      envClick.clickRes stFresh.ctr.nClick = .ok false ∧
      envClick.capture stFresh.ctr.nCap = .ok () ∧
      (∃ st2,
        actPhase envClick cfgStd stFresh "u" "img" "click" decClick
            = .next st2 ∧
          st2.step = stFresh.step + 1 ∧
          st2.shotReady = true ∧
          countCapture st2.trace = countCapture stFresh.trace + 1 ∧
          Event.capture (shotPath cfgStd.taskName (stFresh.step + 1))
            ∈ st2.trace ∧
          observePhase envClick cfgStd st2
            = .ok { st2 with shotReady := false }
                (shotPath cfgStd.taskName (stFresh.step + 1))) := by
  exact ⟨by decide, rfl, rfl,
    C6_nonnavigating_click_recapture envClick cfgStd stFresh "u" "img"
      decClick rfl rfl rfl⟩

/-- **C3 counterexample** — In a concrete run that starts on
`app.example.com`, finds itself on `accounts.google.com` at step 0, and sees
the redirect resolve at the first poll, the iteration still invokes the UI
Describer and the Action Planner (both call counters end at 1, and the
planner's decision takes effect), contradicting the claim that the loop
advances the step counter for that iteration without invoking them. -/
theorem C3_counterexample :
    ((runTask envResolve cfgStd).toOption.map fun p =>
        (p.2.ctr.nVis, p.2.ctr.nPlan, p.1.completed, p.1.steps))
      = some (1, 1, true, 1) := by
  decide

/-- **C3 (amended)** — Whenever the OAuth guard detects a denylist host and
the redirect resolves within the polling window, the iteration resumes
normally: the UI Describer and the Action Planner are invoked for that step
(the skip-and-advance branch guarded by the oauth flag is unreachable, since
the flag is cleared on resolution and the run breaks when stuck). -/
theorem C3_amended_resolved_redirect_still_classifies (env : Env)
    (cfg : Config) (o : String) (st : LoopSt) (imgPath : String)
    (n2 : Nat) (u2 : String) (evs : List Event)
    (hoauth : isOauthHost (netloc (env.url st.ctr.nUrl)) = true)
    (ho : ¬(o = ""))
    (hpoll : pollOauth env o 10 (st.ctr.nUrl + 1) (env.url st.ctr.nUrl) []
        = (false, n2, u2, evs))
    (hdom : env.dom st.ctr.nDom = .ok ()) :
    ((afterObserve env cfg (some o) st imgPath).state).ctr.nPlan
        = st.ctr.nPlan + 1 ∧
      Event.describe imgPath
        ∈ ((afterObserve env cfg (some o) st imgPath).state).trace ∧
      Event.plan st.ctr.nPlan
        ∈ ((afterObserve env cfg (some o) st imgPath).state).trace := by
  have hbeq : (o == "") = false := by
    simp [ho]
  simp only [afterObserve, hbeq, hoauth, Bool.not_false, Bool.and_true,
    if_true, Option.getD_some]
  rw [hpoll]
  simp only [Bool.false_eq_true, if_false, afterGuard, hdom]
  exact ⟨(afterDom_plans env cfg _ u2 imgPath).1,
    (afterDom_plans env cfg _ u2 imgPath).2.2,
    (afterDom_plans env cfg _ u2 imgPath).2.1⟩

/-- Witness for the amended C3: the concrete guard resolution at the first
poll still describes and plans. -/
theorem C3_amended_witness :
    isOauthHost (netloc (envResolve.url stFresh.ctr.nUrl)) = true ∧
      ¬(("app.example.com" : String) = "") ∧
      pollOauth envResolve "app.example.com" 10 (stFresh.ctr.nUrl + 1)
          (envResolve.url stFresh.ctr.nUrl) []
        = (false, 2, "https://app.example.com/dashboard",
            [Event.sleepSecs 1,
             Event.getUrl "https://app.example.com/dashboard"]) ∧
      envResolve.dom stFresh.ctr.nDom = .ok () ∧
      ((afterObserve envResolve cfgStd (some "app.example.com") stFresh
          "img").state).ctr.nPlan = stFresh.ctr.nPlan + 1 ∧
      Event.describe "img"
        ∈ ((afterObserve envResolve cfgStd (some "app.example.com") stFresh
            "img").state).trace ∧
      Event.plan stFresh.ctr.nPlan
        ∈ ((afterObserve envResolve cfgStd (some "app.example.com") stFresh
            "img").state).trace := by
  have h := C3_amended_resolved_redirect_still_classifies envResolve cfgStd
    "app.example.com" stFresh "img" 2 "https://app.example.com/dashboard"
    [Event.sleepSecs 1, Event.getUrl "https://app.example.com/dashboard"]
    (by decide) (by decide) (by decide) rfl
  exact ⟨by decide, by decide, by decide, rfl, h.1, h.2.1, h.2.2⟩

/-- In the always-clicking, never-navigating scenario, the guard, DOM read,
perceive and decide phases resolve into the click branch: the iteration
continues with the step counter advanced by one and the control flags
clear. -/
theorem afterObserve_click_next (env : Env) (cfg : Config)
    (od : Option String) (d : PlannerOutput) (st : LoopSt) (imgPath : String)
    (hcap : ∀ n, env.capture n = .ok ())
    (hdom : ∀ n, env.dom n = .ok ())
    (hurl : ∀ n, isOauthHost (netloc (env.url n)) = false)
    (hplan : ∀ n, env.plan n = d)
    (hact : d.action = some "click")
    (hdone : d.done.getD false = false)
    (hclick : ∀ n, env.clickRes n = .ok false)
    (herr : st.error = none)
    (hoa : st.oauthDetected = false) :
    ∃ st2, afterObserve env cfg od st imgPath = .next st2 ∧
      st2.step = st.step + 1 ∧ st2.done = false ∧ st2.error = none ∧
      st2.oauthDetected = false := by
  simp only [afterObserve, hurl, Bool.false_and, Bool.false_eq_true,
    if_false]
  simp only [afterGuard, hdom]
  simp only [hoa, Bool.false_eq_true, if_false]
  simp only [afterDom, hplan, hact, Option.getD_some, hdone,
    Bool.false_eq_true, if_false]
  rw [if_neg (by decide : ¬((("click" : String) == "error") = true))]
  obtain ⟨st2, h1, hstep, _hshot, hdoneEq, herrEq, hoaEq, _, _, _⟩ :=
    actPhase_click_branch env cfg _ _ imgPath d hact (hclick _) (hcap _)
  refine ⟨st2, h1, ?_, ?_, ?_, ?_⟩
  · simpa using hstep
  · simpa using hdoneEq
  · simpa [herr] using herrEq
  · simpa [hoa] using hoaEq

/-- One whole iteration of the always-clicking scenario. -/
theorem iteration_click_next (env : Env) (cfg : Config)
    (od : Option String) (d : PlannerOutput) (st : LoopSt)
    (hcap : ∀ n, env.capture n = .ok ())
    (hdom : ∀ n, env.dom n = .ok ())
    (hurl : ∀ n, isOauthHost (netloc (env.url n)) = false)
    (hplan : ∀ n, env.plan n = d)
    (hact : d.action = some "click")
    (hdone : d.done.getD false = false)
    (hclick : ∀ n, env.clickRes n = .ok false)
    (herr : st.error = none)
    (hoa : st.oauthDetected = false) :
    ∃ st2, iteration env cfg od st = .next st2 ∧
      st2.step = st.step + 1 ∧ st2.done = false ∧ st2.error = none ∧
      st2.oauthDetected = false := by
  unfold iteration
  by_cases hsr : st.shotReady
  · simp only [observePhase, hsr, if_true]
    exact afterObserve_click_next env cfg od d _ _ hcap hdom hurl hplan
      hact hdone hclick herr hoa
  · simp only [observePhase, hsr, Bool.false_eq_true, if_false, hcap]
    exact afterObserve_click_next env cfg od d _ _ hcap hdom hurl hplan
      hact hdone hclick herr hoa

/-- The always-clicking scenario runs the loop to budget exhaustion. -/
theorem loopRun_click_exhausts (env : Env) (cfg : Config)
    (od : Option String) (d : PlannerOutput)
    (hcap : ∀ n, env.capture n = .ok ())
    (hdom : ∀ n, env.dom n = .ok ())
    (hurl : ∀ n, isOauthHost (netloc (env.url n)) = false)
    (hplan : ∀ n, env.plan n = d)
    (hact : d.action = some "click")
    (hdone : d.done.getD false = false)
    (hclick : ∀ n, env.clickRes n = .ok false) :
    ∀ fuel st, st.done = false → st.error = none →
      st.oauthDetected = false → st.step + fuel = cfg.maxSteps →
      ∃ stF, loopRun env cfg od fuel st = (stF, none) ∧
        stF.done = false ∧ stF.error = none ∧
        stF.step = cfg.maxSteps := by
  intro fuel
  induction fuel with
  | zero =>
    intro st h1 h2 h3 h4
    exact ⟨st, rfl, h1, h2, by omega⟩
  | succ f ih =>
    intro st h1 h2 h3 h4
    have hlt : st.step < cfg.maxSteps := by omega
    obtain ⟨st2, hit, hstep, hdone2, herr2, hoa2⟩ :=
      iteration_click_next env cfg od d st hcap hdom hurl hplan hact hdone
        hclick h2 h3
    have hcond : (decide (st.step < cfg.maxSteps) && !st.done) = true := by
      simp [hlt, h1]
    obtain ⟨stF, hrec, hf1, hf2, hf3⟩ :=
      ih st2 hdone2 herr2 hoa2 (by omega)
    refine ⟨stF, ?_, hf1, hf2, hf3⟩
    simp only [loopRun, hcond, if_true, hit]
    exact hrec

/-- **C7** — For every configuration in which the Planner always returns a
non-done click action, the Browser Controller always reports no navigation,
and the browser primitives otherwise succeed off the OAuth denylist, the
loop terminates once the step counter reaches `max_steps`, and the Run
Result has `completed = false` with no error string set (the exhaustion
count being `max_steps + 1`, since `steps` is the final counter plus one). -/
theorem C7_budget_exhaustion_no_error (env : Env) (cfg : Config)
    (d : PlannerOutput)
    (hcap : ∀ n, env.capture n = .ok ())
    (hdom : ∀ n, env.dom n = .ok ())
    (hurl : ∀ n, isOauthHost (netloc (env.url n)) = false)
    (hplan : ∀ n, env.plan n = d)
    (hact : d.action = some "click")
    (hdone : d.done.getD false = false)
    (hclick : ∀ n, env.clickRes n = .ok false)
    (hnav : ∀ n, env.navRes n = .ok ()) :
    ∃ r stF, runTask env cfg = .ok (r, stF) ∧
      r.completed = false ∧ r.error = none ∧
      r.steps = cfg.maxSteps + 1 ∧ stF.step = cfg.maxSteps := by
  unfold runTask
  by_cases hin : initTruthy cfg.initialUrl
  · simp only [hin, if_true, hnav]
    obtain ⟨stF, hloop, h1, h2, h3⟩ := loopRun_click_exhausts env cfg
      (some (netloc (cfg.initialUrl.getD ""))) d hcap hdom hurl hplan hact
      hdone hclick cfg.maxSteps
      { step := 0, done := false, error := none, oauthDetected := false,
        shotReady := false, ctr := { nNav := 1 },
        trace := [Event.navigate cfg.initialUrl, Event.sleepSecs 2],
        saved := [], recorded := [] } rfl rfl rfl (by simp)
    rw [hloop]
    exact ⟨_, _, rfl, by simp [finishRun, h1],
      by simp [finishRun, h2], by simp [finishRun, h3],
      by simp [finishRun, h3]⟩
  · simp only [hin, Bool.false_eq_true, if_false]
    obtain ⟨stF, hloop, h1, h2, h3⟩ := loopRun_click_exhausts env cfg none d
      hcap hdom hurl hplan hact hdone hclick cfg.maxSteps
      { step := 0, done := false, error := none, oauthDetected := false,
        shotReady := false, ctr := {}, trace := [],
        saved := [], recorded := [] } rfl rfl rfl (by simp)
    rw [hloop]
    exact ⟨_, _, rfl, by simp [finishRun, h1],
      by simp [finishRun, h2], by simp [finishRun, h3],
      by simp [finishRun, h3]⟩

/-- Witness for C7: the concrete always-clicking run with a budget of three
steps exhausts at counter 3 with `completed = false`, `error = none` and
`steps = 4`. -/
theorem C7_witness :
    decClick.action = some "click" ∧
      decClick.done.getD false = false ∧
      (∃ r stF, runTask envClick cfgThree = .ok (r, stF) ∧
        r.completed = false ∧ r.error = none ∧
        r.steps = cfgThree.maxSteps + 1 ∧ stF.step = cfgThree.maxSteps) := by
  exact ⟨by decide, by decide,
    C7_budget_exhaustion_no_error envClick cfgThree decClick
      (fun _ => rfl) (fun _ => rfl) (fun _ => rfl) (fun _ => rfl)
      rfl rfl (fun _ => rfl) (fun _ => rfl)⟩

/-- **C1** — If the Action Planner returns `done = true` on the first
iteration (step 0), the run halts with `completed = true`, the Run Result's
steps count equals 1, and no action is dispatched to the Browser Controller
(`perform` is never called). -/
theorem C1_done_short_circuit (env : Env) (cfg : Config)
    (hms : 1 ≤ cfg.maxSteps)
    (hnav : initTruthy cfg.initialUrl = true → env.navRes 0 = .ok ())
    (hcap : env.capture 0 = .ok ())
    (hurl : isOauthHost (netloc (env.url 0)) = false)
    (hdom : env.dom 0 = .ok ())
    (hdone : (env.plan 0).done = some true) :
    ∃ r stF, runTask env cfg = .ok (r, stF) ∧
      r.completed = true ∧ r.steps = 1 ∧
      countPerform stF.trace = 0 := by
  have hpos : (0 : Nat) < cfg.maxSteps := by omega
  obtain ⟨k, hk⟩ : ∃ k, cfg.maxSteps = k + 1 := ⟨cfg.maxSteps - 1, by omega⟩
  unfold runTask
  by_cases hin : initTruthy cfg.initialUrl
  · simp only [hin, if_true, hnav hin]
    rw [hk]
    simp only [loopRun, hk]
    simp only [iteration, observePhase, Bool.false_eq_true, if_false, hcap]
    simp only [afterObserve, hurl, Bool.false_and, Bool.false_eq_true,
      if_false]
    simp only [afterGuard, hdom, Bool.false_eq_true, if_false]
    simp only [afterDom, hdone, Option.getD_some, if_true]
    simp only [show decide ((0 : Nat) < k + 1) = true by simp, Bool.not_false,
      Bool.and_self, if_true]
    refine ⟨_, _, rfl, rfl, rfl, ?_⟩
    simp [finishRun, countPerform]
  · simp only [hin, Bool.false_eq_true, if_false]
    rw [hk]
    simp only [loopRun, hk]
    simp only [iteration, observePhase, Bool.false_eq_true, if_false, hcap]
    simp only [afterObserve, hurl, Bool.false_and, Bool.false_eq_true,
      if_false]
    simp only [afterGuard, hdom, Bool.false_eq_true, if_false]
    simp only [afterDom, hdone, Option.getD_some, if_true]
    simp only [show decide ((0 : Nat) < k + 1) = true by simp, Bool.not_false,
      Bool.and_self, if_true]
    refine ⟨_, _, rfl, rfl, rfl, ?_⟩
    simp [finishRun, countPerform]

/-- Witness for C1: the concrete run whose planner reports done at step 0
completes with one step and dispatches nothing. -/
theorem C1_witness :
    (1 : Nat) ≤ cfgStd.maxSteps ∧
      (envDone.plan 0).done = some true ∧
      (∃ r stF, runTask envDone cfgStd = .ok (r, stF) ∧
        r.completed = true ∧ r.steps = 1 ∧
        countPerform stF.trace = 0) := by
  exact ⟨by decide, by decide,
    C1_done_short_circuit envDone cfgStd (by decide) (fun _ => rfl) rfl rfl
      rfl rfl⟩

/-- If the URL never changes, stays on the denylist, and does not contain
the original domain, the OAuth poll loop runs all `k` rounds, sleeping one
second before each re-read, and reports still stuck. -/
theorem pollOauth_stuck (env : Env) (o u : String)
    (hurl : ∀ n, env.url n = u)
    (hno : pyIn o (netloc u) = false)
    (hoauth : isOauthHost (netloc u) = true) :
    ∀ k n u0 evs, 1 ≤ k →
      pollOauth env o k n u0 evs
        = (true, n + k, u,
            evs ++ (List.replicate k
              [Event.sleepSecs 1, Event.getUrl u]).flatten) := by
  intro k
  induction k with
  | zero =>
    intro n u0 evs h
    exact absurd h (by omega)
  | succ k ih =>
    intro n u0 evs _
    simp only [pollOauth, hurl, hno, hoauth, Bool.not_true, Bool.or_self,
      Bool.false_eq_true, if_false]
    cases k with
    | zero =>
      simp [pollOauth, List.replicate, List.flatten]
    | succ k2 =>
      rw [ih (n + 1) u (evs ++ [Event.sleepSecs 1, Event.getUrl u])
        (by omega)]
      simp only [Prod.mk.injEq, List.replicate_succ, List.flatten_cons,
        List.append_assoc, List.cons_append, List.nil_append, true_and,
        and_true]
      omega

/-- **C2** — For every run in which the browser is on a host matching the
OAuth denylist and never leaves it (and an original, non-denylist-contained
host was recorded), the guard re-reads the URL exactly 10 times at
one-second intervals and then halts the run with `completed = false` and a
non-empty error string naming the stuck host; the trace is exactly the
initial navigation, the step-0 screenshot, the pre-guard URL read, ten
sleep-then-re-read pairs, and the summary write. -/
theorem C2_oauth_guard_halts_after_ten_polls (env : Env) (cfg : Config)
    (u0 u : String)
    (hcfg : cfg.initialUrl = some u0) (h0 : ¬(u0 = ""))
    (hnl : ¬(netloc u0 = ""))
    (hnav : env.navRes 0 = .ok ())
    (hcap : env.capture 0 = .ok ())
    (hurl : ∀ n, env.url n = u)
    (hoauth : isOauthHost (netloc u) = true)
    (hno : pyIn (netloc u0) (netloc u) = false)
    (hms : 1 ≤ cfg.maxSteps) :
    ∃ r stF, runTask env cfg = .ok (r, stF) ∧
      r.completed = false ∧
      r.error = some ("Stuck on OAuth page: " ++ netloc u ++
        ". Please complete authentication manually.") ∧
      r.steps = 1 ∧
      stF.trace
        = [Event.navigate (some u0), Event.sleepSecs 2,
            Event.capture (shotPath cfg.taskName 0), Event.getUrl u]
          ++ (List.replicate 10
              [Event.sleepSecs 1, Event.getUrl u]).flatten
          ++ [Event.summary false
              (some ("Stuck on OAuth page: " ++ netloc u ++
                ". Please complete authentication manually."))] := by
  have hin2 : initTruthy (some u0) = true := by
    simp [initTruthy, h0]
  obtain ⟨k, hk⟩ : ∃ k, cfg.maxSteps = k + 1 := ⟨cfg.maxSteps - 1, by omega⟩
  unfold runTask
  simp only [hcfg, hin2, if_true, hnav]
  rw [hk]
  simp only [loopRun, hk]
  simp only [show decide ((0 : Nat) < k + 1) = true by simp, Bool.not_false,
    Bool.and_self, if_true]
  simp only [iteration, observePhase, Bool.false_eq_true, if_false, hcap]
  simp only [afterObserve, hurl, hoauth, Option.getD_some,
    show (netloc u0 == "") = false by simp [hnl], Bool.not_false,
    Bool.true_and, Bool.and_self, if_true]
  rw [pollOauth_stuck env (netloc u0) u hurl hno hoauth 10 1 u []
    (by omega)]
  refine ⟨_, _, rfl, ?_, ?_, ?_, ?_⟩ <;>
    simp [finishRun, List.append_assoc]

/-- Witness for C2: the concrete run parked on `accounts.google.com` halts
after ten one-second polls naming the stuck host. -/
theorem C2_witness :
    cfgStd.initialUrl = some "https://app.example.com/start" ∧
      isOauthHost (netloc "https://accounts.google.com/signin") = true ∧
      (∃ r stF, runTask envStuck cfgStd = .ok (r, stF) ∧
        r.completed = false ∧
        r.error = some ("Stuck on OAuth page: " ++
          netloc "https://accounts.google.com/signin" ++
          ". Please complete authentication manually.") ∧
        r.steps = 1 ∧
        stF.trace
          = [Event.navigate (some "https://app.example.com/start"),
              Event.sleepSecs 2,
              Event.capture (shotPath cfgStd.taskName 0),
              Event.getUrl "https://accounts.google.com/signin"]
            ++ (List.replicate 10
                [Event.sleepSecs 1,
                 Event.getUrl "https://accounts.google.com/signin"]).flatten
            ++ [Event.summary false
                (some ("Stuck on OAuth page: " ++
                  netloc "https://accounts.google.com/signin" ++
                  ". Please complete authentication manually."))]) := by
  exact ⟨rfl, by decide,
    C2_oauth_guard_halts_after_ten_polls envStuck cfgStd
      "https://app.example.com/start" "https://accounts.google.com/signin"
      rfl (by decide) (by decide) rfl rfl (fun _ => rfl) (by decide)
      (by decide) (by decide)⟩

end UICapture
